import Mathlib

/-
Shallow embedding of the inveni file-versioning core
(`core/version_manager.py`, with the time helpers of `utils/time_utils.py`),
together with theorems settling the specification's claims about it.

Modelling conventions:
- Python dicts become insertion-ordered association lists (`List (String × β)`);
  keys are unique in any state the program builds, mirroring dict semantics.
- Machine integers are `Nat` with explicit `% 2 ^ 32` where SHA-256 needs
  wraparound; no bitvector types are used.
- Fallible Python code returns `Except PyError α`; a `try/except` block is a
  `match` on that result.
- The filesystem visible to the manager is a record `FS`: the regular files it
  hashes, the index file `tracked_files.json`, the temporary save file
  `tracked_files.json.tmp`, and any quarantined corrupt index files.
- `utils/time_utils.py` defines `get_formatted_time()` with *no* parameters and
  does not define `get_current_username` at all, while `version_manager.py`
  calls `get_formatted_time(use_utc=True)` and `get_current_username()`.
  Those calls therefore raise; they are embedded as constants that return
  `Except.error`.  For the claims that concern the behaviour the code was
  clearly written to have, each affected operation also has a `_fixed` variant,
  identical to the source translation except that the two time helpers succeed
  and are supplied as explicit `now`/`user` arguments.
-/

/-- Python exception classes relevant to the translated code. -/
inductive PyError
  | typeError
  | fileNotFound
  | ioError
  | jsonDecodeError
  | valueError
  | keyError
deriving DecidableEq, Repr

deriving instance DecidableEq for Except

/-! ### SHA-256 (`hashlib.sha256`), over byte lists, wrapping at `2 ^ 32` -/

/-- Truncate to a 32-bit word. -/
def w32 (n : Nat) : Nat := n % 4294967296

/-- Right rotation of a 32-bit word. -/
def rotr32 (x n : Nat) : Nat := ((x >>> n) ||| (x <<< (32 - n))) % 4294967296

def shaCh (x y z : Nat) : Nat := (x &&& y) ^^^ ((x ^^^ 4294967295) &&& z)

def shaMaj (x y z : Nat) : Nat := (x &&& y) ^^^ (x &&& z) ^^^ (y &&& z)

def bigS0 (x : Nat) : Nat := rotr32 x 2 ^^^ rotr32 x 13 ^^^ rotr32 x 22

def bigS1 (x : Nat) : Nat := rotr32 x 6 ^^^ rotr32 x 11 ^^^ rotr32 x 25

def smallS0 (x : Nat) : Nat := rotr32 x 7 ^^^ rotr32 x 18 ^^^ (x >>> 3)

def smallS1 (x : Nat) : Nat := rotr32 x 17 ^^^ rotr32 x 19 ^^^ (x >>> 10)

/-- The 64 SHA-256 round constants. -/
def shaK : List Nat :=
  [1116352408, 1899447441, 3049323471, 3921009573, 961987163, 1508970993,
   2453635748, 2870763221, 3624381080, 310598401, 607225278, 1426881987,
   1925078388, 2162078206, 2614888103, 3248222580, 3835390401, 4022224774,
   264347078, 604807628, 770255983, 1249150122, 1555081692, 1996064986,
   2554220882, 2821834349, 2952996808, 3210313671, 3336571891, 3584528711,
   113926993, 338241895, 666307205, 773529912, 1294757372, 1396182291,
   1695183700, 1986661051, 2177026350, 2456956037, 2730485921, 2820302411,
   3259730800, 3345764771, 3516065817, 3600352804, 4094571909, 275423344,
   430227734, 506948616, 659060556, 883997877, 958139571, 1322822218,
   1537002063, 1747873779, 1955562222, 2024104815, 2227730452, 2361852424,
   2428436474, 2756734187, 3204031479, 3329325298]

/-- The SHA-256 initial hash value. -/
def shaH0 : List Nat :=
  [1779033703, 3144134277, 1013904242, 2773480762, 1359893119, 2600822924,
   528734635, 1541459225]

/-- `k` bytes of `n`, big-endian. -/
def natToBytesBE (k n : Nat) : List Nat :=
  (List.range k).map (fun i => (n >>> (8 * (k - 1 - i))) &&& 255)

/-- SHA-256 message padding: `0x80`, zeros, then the 64-bit bit length. -/
def shaPad (msg : List Nat) : List Nat :=
  let len := msg.length
  msg ++ [128] ++ List.replicate ((119 - len % 64) % 64) 0 ++ natToBytesBE 8 (8 * len)

/-- Split a byte list into big-endian 32-bit words. -/
def bytesToWordsBE : List Nat → List Nat
  | b1 :: b2 :: b3 :: b4 :: rest =>
      ((((b1 <<< 8) ||| b2) <<< 8 ||| b3) <<< 8 ||| b4) :: bytesToWordsBE rest
  | _ => []

/-- Extend a 16-word block to the 64-word message schedule (`k` extension steps). -/
def extendW : Nat → List Nat → List Nat
  | 0, w => w
  | k + 1, w =>
      let t := w.length
      let nw := w32 (smallS1 (w.getD (t - 2) 0) + w.getD (t - 7) 0 +
                     smallS0 (w.getD (t - 15) 0) + w.getD (t - 16) 0)
      extendW k (w ++ [nw])

/-- One SHA-256 compression round. -/
def shaRound (st : Nat × Nat × Nat × Nat × Nat × Nat × Nat × Nat) (kw : Nat × Nat) :
    Nat × Nat × Nat × Nat × Nat × Nat × Nat × Nat :=
  let (a, b, c, d, e, f, g, h) := st
  let (k, w) := kw
  let t1 := w32 (h + bigS1 e + shaCh e f g + k + w)
  let t2 := w32 (bigS0 a + shaMaj a b c)
  (w32 (t1 + t2), a, b, c, w32 (d + t1), e, f, g)

/-- Compress one 64-byte block into the running hash value. -/
def processBlock (H : List Nat) (block : List Nat) : List Nat :=
  let w := extendW 48 (bytesToWordsBE block)
  let h0 := H.getD 0 0
  let h1 := H.getD 1 0
  let h2 := H.getD 2 0
  let h3 := H.getD 3 0
  let h4 := H.getD 4 0
  let h5 := H.getD 5 0
  let h6 := H.getD 6 0
  let h7 := H.getD 7 0
  let (a, b, c, d, e, f, g, h) :=
    (shaK.zip w).foldl shaRound (h0, h1, h2, h3, h4, h5, h6, h7)
  [w32 (h0 + a), w32 (h1 + b), w32 (h2 + c), w32 (h3 + d),
   w32 (h4 + e), w32 (h5 + f), w32 (h6 + g), w32 (h7 + h)]

/-- Split a list into chunks of `n` elements (structural, fuel = list length). -/
def chunkListAux (fuel n : Nat) (l : List α) : List (List α) :=
  match fuel, l with
  | _, [] => []
  | 0, _ :: _ => []
  | fuel + 1, x :: xs => (x :: xs).take n :: chunkListAux fuel n ((x :: xs).drop n)

/-- Split a list into chunks of `n` elements (`n ≥ 1`). -/
def chunkList (n : Nat) (l : List α) : List (List α) := chunkListAux l.length n l

/-- The SHA-256 state words of a byte message. -/
def sha256words (msg : List Nat) : List Nat :=
  (chunkList 64 (shaPad msg)).foldl processBlock shaH0

def hexChar (n : Nat) : Char := "0123456789abcdef".toList.getD n 'x'

/-- Lowercase hexadecimal rendering of a 32-bit word. -/
def wordToHex (x : Nat) : String :=
  String.mk ((List.range 8).map (fun i => hexChar ((x >>> (28 - 4 * i)) &&& 15)))

/-- Lowercase hex SHA-256 digest of a byte message, as `hexdigest()` returns it. -/
def sha256hex (msg : List Nat) : String :=
  String.join ((sha256words msg).map wordToHex)

/-! ### Chunked reading: `chunkList` recovers the original byte stream -/

theorem chunkListAux_flatten (n : Nat) (hn : 1 ≤ n) :
    ∀ (fuel : Nat) (l : List α), l.length ≤ fuel →
      (chunkListAux fuel n l).flatten = l := by
  intro fuel
  induction fuel with
  | zero =>
      intro l hl
      cases l with
      | nil => simp [chunkListAux]
      | cons x xs => simp at hl
  | succ k ih =>
      intro l hl
      cases l with
      | nil => simp [chunkListAux]
      | cons x xs =>
          have hdrop : ((x :: xs).drop n).length ≤ k := by
            simp only [List.length_drop, List.length_cons] at *
            omega
          simp only [chunkListAux, List.flatten_cons, ih _ hdrop,
            List.take_append_drop]

theorem chunkList_flatten (n : Nat) (hn : 1 ≤ n) (l : List α) :
    (chunkList n l).flatten = l :=
  chunkListAux_flatten n hn l.length l (Nat.le_refl _)

/-! ### Timestamps: `datetime.strptime(ts, "%Y-%m-%d %H:%M:%S")` -/

structure DateTime where
  y : Nat
  mo : Nat
  d : Nat
  h : Nat
  mi : Nat
  s : Nat
deriving DecidableEq, Repr

/-- Injective, order-preserving key; Python compares `datetime`s
lexicographically by (year, month, day, hour, minute, second). -/
def DateTime.key (t : DateTime) : Nat :=
  ((((t.y * 100 + t.mo) * 100 + t.d) * 100 + t.h) * 100 + t.mi) * 100 + t.s

def isLeapYear (y : Nat) : Bool := (y % 4 == 0 && y % 100 != 0) || y % 400 == 0

def daysInMonth (y mo : Nat) : Nat :=
  if mo == 2 then (if isLeapYear y then 29 else 28)
  else if mo == 4 || mo == 6 || mo == 9 || mo == 11 then 30
  else 31

def digitVal (c : Char) : Option Nat :=
  if '0' ≤ c ∧ c ≤ '9' then some (c.toNat - 48) else none

/-- Two decimal digits read at position `i`. -/
def twoDigits (cs : List Char) (i : Nat) : Option Nat := do
  let d1 ← digitVal (cs.getD i ' ')
  let d2 ← digitVal (cs.getD (i + 1) ' ')
  pure (d1 * 10 + d2)

/-- Parse `"YYYY-MM-DD HH:MM:SS"`, validating field ranges as
`datetime.strptime` does (`none` models a raised `ValueError`).  Timestamps
written by this program are always zero-padded, which is the form modelled. -/
def strptime (ts : String) : Option DateTime :=
  let cs := ts.toList
  if cs.length = 19 ∧ cs.getD 4 ' ' = '-' ∧ cs.getD 7 ' ' = '-' ∧
     cs.getD 10 '-' = ' ' ∧ cs.getD 13 ' ' = ':' ∧ cs.getD 16 ' ' = ':' then do
    let yHi ← twoDigits cs 0
    let yLo ← twoDigits cs 2
    let yv := yHi * 100 + yLo
    let mov ← twoDigits cs 5
    let dv ← twoDigits cs 8
    let hv ← twoDigits cs 11
    let miv ← twoDigits cs 14
    let sv ← twoDigits cs 17
    if 1 ≤ yv ∧ 1 ≤ mov ∧ mov ≤ 12 ∧ 1 ≤ dv ∧ dv ≤ daysInMonth yv mov ∧
       hv ≤ 23 ∧ miv ≤ 59 ∧ sv ≤ 59 then
      some ⟨yv, mov, dv, hv, miv, sv⟩
    else none
  else none

/-! ### The data model of `tracked_files.json` -/

/-- Version metadata payload (`size`, `modification_time`, ...): the manager
stores and copies it opaquely, so a generic string mapping suffices. -/
abbrev Meta := List (String × String)

/-- One entry of a file's `versions` dict.  `deleted` is read everywhere as
`info.get("deleted", False)`, so an absent key is identified with `false`;
`timestamp` is kept optional because damaged entries may lack it. -/
structure VersionInfo where
  timestamp : Option String
  metadata : Meta
  username : String
  commit_message : String
  deleted : Bool
deriving DecidableEq, Repr

/-- One tracked file: the `versions` key itself may be absent (the code guards
`"versions" not in tracked_files[path]`). -/
structure TrackedFile where
  versions : Option (List (String × VersionInfo))
  last_updated : Option String
deriving DecidableEq, Repr

/-- The index mapping: normalized path → tracked file (a Python dict,
modelled as an insertion-ordered association list). -/
abbrev TrackedFiles := List (String × TrackedFile)

/-- On-disk content of the index file (or of the temporary save file):
either a parseable serialization of a mapping, or corrupt bytes. -/
inductive IndexContent
  | good (tf : TrackedFiles)
  | corrupt (raw : String)
deriving DecidableEq, Repr

/-- The filesystem as the version manager sees it. -/
structure FS where
  files : List (String × List Nat)
  index : Option IndexContent
  temp : Option IndexContent
  quarantined : List (String × IndexContent)
deriving DecidableEq, Repr

/-- Fault scenario for one `save_tracked_files` call: whether the temp-file
write fails (and what it leaves behind — `none` means the temp file was never
created), whether `os.replace` fails, and whether the cleanup `os.remove`
fails.  The code wraps each of these operations in `try`/`except`. -/
structure SaveFaults where
  writeFails : Bool
  tempLeft : Option IndexContent
  replaceFails : Bool
  removeFails : Bool
deriving DecidableEq, Repr

def noFaults : SaveFaults := ⟨false, none, false, false⟩

/-- A Python value that `settings.get("max_backups", 3)` may return. -/
inductive SettingVal
  | vint (n : Int)
  | vstr (s : String)
  | vnone
deriving DecidableEq, Repr

/-- The settings manager, reduced to the only key the core reads:
`none` models an absent `"max_backups"` entry (so `.get` yields default 3). -/
structure SettingsManager where
  max_backups : Option SettingVal
deriving DecidableEq, Repr

/-- `self` of the `VersionManager` class (only `settings_manager` matters to
the translated operations; the index path is fixed). -/
structure VersionManager where
  settings_manager : Option SettingsManager
deriving DecidableEq, Repr

/-! ### Small Python helpers -/

def parseDigitsAux : List Char → Nat → Option Nat
  | [], acc => some acc
  | c :: cs, acc =>
      match digitVal c with
      | some d => parseDigitsAux cs (acc * 10 + d)
      | none => none

def isSpaceChar (c : Char) : Bool :=
  c = ' ' || c = '\t' || c = '\n' || c = '\r' || c = '\x0b' || c = '\x0c'

/-- Strip leading and trailing whitespace. -/
def trimChars (s : String) : String :=
  String.mk (((s.toList.dropWhile isSpaceChar).reverse.dropWhile isSpaceChar).reverse)

/-- Python `int(string)`: strip whitespace, optional sign, decimal digits. -/
def parseIntStr (s : String) : Option Int :=
  match (trimChars s).toList with
  | '-' :: cs => if cs = [] then none else (parseDigitsAux cs 0).map (fun n => -(n : Int))
  | '+' :: cs => if cs = [] then none else (parseDigitsAux cs 0).map (fun n => (n : Int))
  | cs => if cs = [] then none else (parseDigitsAux cs 0).map (fun n => (n : Int))

/-- Python `int(x)` on a settings value: `ValueError` for a non-numeric
string, `TypeError` for `None` — both caught by the code's fallback. -/
def py_int : SettingVal → Except PyError Int
  | .vint n => Except.ok n
  | .vstr s =>
      match parseIntStr s with
      | some n => Except.ok n
      | none => Except.error PyError.valueError
  | .vnone => Except.error PyError.typeError

def normParts : Bool → List String → List String → List String
  | _, acc, [] => acc.reverse
  | isAbs, acc, c :: rest =>
      if c = "" ∨ c = "." then normParts isAbs acc rest
      else if c = ".." then
        match acc with
        | [] => if isAbs then normParts isAbs [] rest else normParts isAbs [".."] rest
        | p :: ps =>
            if p = ".." then normParts isAbs (".." :: p :: ps) rest
            else normParts isAbs ps rest
      else normParts isAbs (c :: acc) rest

/-- Split at every occurrence of a separator character. -/
def splitCharAux (sep : Char) : List Char → List Char → List String
  | [], acc => [String.mk acc.reverse]
  | c :: cs, acc =>
      if c = sep then String.mk acc.reverse :: splitCharAux sep cs []
      else splitCharAux sep cs (c :: acc)

def splitChar (sep : Char) (s : String) : List String := splitCharAux sep s.toList []

/-- POSIX `os.path.normpath`. -/
def normpath (p : String) : String :=
  if p = "" then "." else
  let isAbs : Bool :=
    match p.toList with
    | '/' :: _ => true
    | _ => false
  let dslash : Bool :=
    match p.toList with
    | '/' :: '/' :: '/' :: _ => false
    | '/' :: '/' :: _ => true
    | _ => false
  let body := String.intercalate "/" (normParts isAbs [] (splitChar '/' p))
  if isAbs then (if dslash then "//" else "/") ++ body
  else if body = "" then "." else body

/-- Python dict assignment `d[k] = v`: overwrite in place if the key exists
(keeping its position), otherwise append at the end. -/
def assocSet : List (String × β) → String → β → List (String × β)
  | [], k, v => [(k, v)]
  | (k', v') :: rest, k, v =>
      if k' = k then (k, v) :: rest else (k', v') :: assocSet rest k v

/-! ### The broken time helpers (`utils/time_utils.py`) -/

/-- The call `get_formatted_time(use_utc=True)` made throughout
`version_manager.py`: `utils/time_utils.py` defines
`def get_formatted_time() -> str` with no parameters, so the keyword
argument raises `TypeError`. -/
def get_formatted_time_use_utc : Except PyError String :=
  Except.error PyError.typeError

/-- The call `get_current_username()`: the name is imported from
`utils.time_utils` but is not defined in that module at all, so no execution
reaching this call can succeed (the `import` line itself already fails for
the same reason). -/
def get_current_username_missing : Except PyError String :=
  Except.error PyError.typeError

/-! ### Timestamp keys and the descending sort used by the manager -/

/-- The parsed-timestamp sort key of a `(hash, info)` pair, when it has one. -/
def tsKey (p : String × VersionInfo) : Option Nat :=
  (p.2.timestamp.bind strptime).map DateTime.key

/-- Total version of `tsKey` (only read where `tsKey` is known to be `some`). -/
def tsKeyD (p : String × VersionInfo) : Nat := (tsKey p).getD 0

/-- A `(hash, info)` pair together with its precomputed sort key, as Python's
`sorted(..., key=...)` computes keys up front. -/
abbrev KeyedVersion := (String × VersionInfo) × Nat

/-- `sorted(..., reverse=True)` order: later key less-or-equal earlier key. -/
def byTsDesc (a b : KeyedVersion) : Prop := b.2 ≤ a.2

instance : DecidableRel byTsDesc := fun a b => Nat.decLe b.2 a.2

instance : IsTotal KeyedVersion byTsDesc := ⟨fun a b => Nat.le_total b.2 a.2⟩

instance : IsTrans KeyedVersion byTsDesc := ⟨fun _ _ _ hab hbc => Nat.le_trans hbc hab⟩

/-! ### `calculate_file_hash` (version_manager.py lines 23–37) -/

/-- The incremental `hashlib.sha256()` object: its state is the byte stream
fed so far; `update` appends a chunk and `hexdigest` finalizes. -/
abbrev Hasher := List Nat

def Hasher.update (h : Hasher) (chunk : List Nat) : Hasher := h ++ chunk

def Hasher.hexdigest (h : Hasher) : String := sha256hex h

/-- `calculate_file_hash`: stream the file through SHA-256 in 8 KiB chunks;
`FileNotFoundError` is logged and re-raised. -/
def calculate_file_hash (s : FS) (file_path : String) : Except PyError String :=
  match s.files.lookup file_path with
  | none => Except.error PyError.fileNotFound
  | some content =>
      Except.ok (Hasher.hexdigest ((chunkList 8192 content).foldl Hasher.update ([] : Hasher)))

/-! ### `load_tracked_files` (lines 80–100) and `save_tracked_files` (102–119) -/

/-- `now.replace(":", "-")` (the pattern is a single character). -/
def colonsToDashes (s : String) : String :=
  String.mk (s.toList.map (fun c => if c = ':' then '-' else c))

/-- The quarantine rename of the `json.JSONDecodeError` handler: move the
index file aside to `tracked_files.json.corrupted_<timestamp with dashes>`. -/
def load_rename (s : FS) (now : String) : FS :=
  match s.index with
  | none => s
  | some c =>
      { s with
        index := none
        quarantined :=
          ("tracked_files.json.corrupted_" ++ colonsToDashes now, c) :: s.quarantined }

/-- `load_tracked_files`, faithful.  A missing index file yields `{}`; a
corrupt one is meant to be renamed aside and `{}` returned — but building the
quarantine name calls `get_formatted_time(use_utc=True)`, which raises
`TypeError`, and the inner `except` catches it, so the corrupt file stays
where it is. -/
def load_tracked_files (s : FS) : FS × TrackedFiles :=
  match s.index with
  | none => (s, [])
  | some (IndexContent.good tf) => (s, tf)
  | some (IndexContent.corrupt _) =>
      match get_formatted_time_use_utc with
      | Except.error _ => (s, [])
      | Except.ok now => (load_rename s now, [])

/-- `load_tracked_files` as the handler was written to behave: identical to
the source translation except that `get_formatted_time` succeeds, its value
supplied as `now`. -/
def load_tracked_files_fixed (s : FS) (now : String) : FS × TrackedFiles :=
  match s.index with
  | none => (s, [])
  | some (IndexContent.good tf) => (s, tf)
  | some (IndexContent.corrupt _) => (load_rename s now, [])

/-- The `except` handler of `save_tracked_files`: try to remove the temporary
file if it exists (that removal may itself fail, which is only logged), then
re-raise the original error. -/
def handle_save_error (s : FS) (f : SaveFaults) : FS × Except PyError Unit :=
  match s.temp with
  | none => (s, Except.error PyError.ioError)
  | some _ =>
      if f.removeFails then (s, Except.error PyError.ioError)
      else ({ s with temp := none }, Except.error PyError.ioError)

/-- `save_tracked_files`: serialize the mapping to `tracked_files.json.tmp`,
then `os.replace` it over the index file (atomic); on failure run
`handle_save_error`. -/
def save_tracked_files (s : FS) (tracked_files : TrackedFiles) (f : SaveFaults) :
    FS × Except PyError Unit :=
  if f.writeFails then
    handle_save_error { s with temp := f.tempLeft } f
  else
    let s1 := { s with temp := some (IndexContent.good tracked_files) }
    if f.replaceFails then handle_save_error s1 f
    else ({ s1 with index := some (IndexContent.good tracked_files), temp := none },
          Except.ok ())

/-! ### `has_file_changed` (lines 39–77) -/

/-- Key computation of `sorted(active_versions, key=..., reverse=True)`:
Python computes every key up front, in list order, and `info["timestamp"]`
raises `KeyError` on a missing key while `strptime` raises `ValueError` on a
malformed one. -/
def parseKeysPython : List (String × VersionInfo) → Except PyError (List KeyedVersion)
  | [] => Except.ok []
  | p :: rest =>
      match p.2.timestamp with
      | none => Except.error PyError.keyError
      | some ts =>
          match strptime ts with
          | none => Except.error PyError.valueError
          | some dt => (parseKeysPython rest).map (fun ks => (p, dt.key) :: ks)

/-- The `try` block of `has_file_changed`. -/
def has_file_changed_try (s : FS) (file_path : String) (tracked_files : TrackedFiles) :
    Except PyError (Bool × String × String) :=
  match calculate_file_hash s file_path with
  | Except.error e => Except.error e
  | Except.ok current_hash =>
    let normalized_path := normpath file_path
    match tracked_files.lookup normalized_path with
    | none => Except.ok (true, current_hash, "")
    | some entry =>
        let versions := entry.versions.getD []
        if versions.isEmpty then Except.ok (true, current_hash, "")
        else
          let active := versions.filter (fun p => !p.2.deleted)
          if active.isEmpty then Except.ok (true, current_hash, "")
          else
            match parseKeysPython active with
            | Except.error e => Except.error e
            | Except.ok keyed =>
                match List.insertionSort byTsDesc keyed with
                | [] => Except.ok (true, current_hash, "")   -- unreachable: keyed ≠ []
                | latest :: _ =>
                    Except.ok (current_hash != latest.1.1, current_hash, latest.1.1)

/-- `has_file_changed`: `(has_changed, current_hash, last_active_hash)`.  The
`except` handler reports a change, recomputing the hash when the file exists. -/
def has_file_changed (s : FS) (file_path : String) (tracked_files : TrackedFiles) :
    Bool × String × String :=
  match has_file_changed_try s file_path tracked_files with
  | Except.ok r => r
  | Except.error _ =>
      (true,
       if (s.files.lookup file_path).isSome then
         match calculate_file_hash s file_path with
         | Except.ok h => h
         | Except.error _ => ""   -- unreachable: the file exists
       else "",
       "")

/-! ### `_enforce_backup_limit` (lines 197–303) -/

/-- Lines 212–225: read the configured cap, falling back to the default of 3
(with a logged warning) when the settings manager is absent, the value does
not convert with `int(...)`, or it is not positive. -/
def read_max_backups (sm : Option SettingsManager) : Int :=
  match sm with
  | none => 3
  | some m =>
      match m.max_backups with
      | none => 3   -- `.get` default `3`; `int(3) = 3` passes the check
      | some v =>
          match py_int v with
          | Except.error _ => 3
          | Except.ok n => if n ≤ 0 then 3 else n

/-- Lines 246–259 (also 350–362): collect the active versions whose
timestamp is present and parses, skipping (and logging) the rest. -/
def collectActive : List (String × VersionInfo) → List KeyedVersion
  | [] => []
  | p :: rest =>
      if p.2.deleted then collectActive rest
      else
        match p.2.timestamp with
        | none => collectActive rest      -- missing timestamp: skipped
        | some ts =>
            match strptime ts with
            | none => collectActive rest  -- malformed timestamp: skipped
            | some dt => (p, dt.key) :: collectActive rest

/-- One iteration of the marking loop (lines 279–285): mark a version
deleted unless it already was, recording the newly marked hash. -/
def markStep (acc : List (String × VersionInfo) × List String) (q : KeyedVersion) :
    List (String × VersionInfo) × List String :=
  let (vs, marked) := acc
  match vs.lookup q.1.1 with
  | none => (vs, marked)   -- unreachable: the hash was drawn from `versions`
  | some info =>
      if info.deleted then (vs, marked)
      else (assocSet vs q.1.1 { info with deleted := true }, marked ++ [q.1.1])

/-- Lines 232–299 of `_enforce_backup_limit`, after the cap has been read and
the clock consulted: reload fresh, collect valid active versions, sort newest
first, mark everything beyond the first `max_backups` deleted, and save only
if something changed.  `loadFn` is the reload (faithful or fixed). -/
def enforce_rest (max_backups : Int) (loadFn : FS → FS × TrackedFiles)
    (s : FS) (file_path now : String) (f : SaveFaults) :
    Except (FS × PyError) (FS × List String) :=
  let (s1, tracked_files) := loadFn s
  let normalized_path := normpath file_path
  match tracked_files.lookup normalized_path with
  | none => Except.ok (s1, [])
  | some entry =>
      match entry.versions with
      | none => Except.ok (s1, [])   -- `"versions" not in tracked_files[path]`
      | some versions =>
          if versions.isEmpty then Except.ok (s1, [])
          else
            let active := collectActive versions
            if active.isEmpty then Except.ok (s1, [])
            else
              let sortedActive := List.insertionSort byTsDesc active
              if (active.length : Int) ≤ max_backups then Except.ok (s1, [])
              else
                let excess := sortedActive.drop max_backups.toNat
                let (versions2, marked) := excess.foldl markStep (versions, [])
                if marked.isEmpty then Except.ok (s1, [])
                else
                  let tracked2 := assocSet tracked_files normalized_path
                    { entry with versions := some versions2, last_updated := some now }
                  match save_tracked_files s1 tracked2 f with
                  | (s2, Except.error e) => Except.error (s2, e)
                  | (s2, Except.ok _) => Except.ok (s2, marked)

/-- `_enforce_backup_limit`, faithful: the cap is read (lines 212–225), then
the next statement calls `get_formatted_time(use_utc=True)`, which raises
`TypeError`; the surrounding catch-all logs it and returns `[]`, so
enforcement never marks anything and never touches the filesystem. -/
def enforce_backup_limit (vm : VersionManager) (s : FS) (file_path : String)
    (f : SaveFaults) : FS × List String :=
  let max_backups := read_max_backups vm.settings_manager
  match get_formatted_time_use_utc with
  | Except.error _ => (s, [])   -- caught by the catch-all: log, return []
  | Except.ok now =>
      match get_current_username_missing with
      | Except.error _ => (s, [])
      | Except.ok _ =>
          match enforce_rest max_backups load_tracked_files s file_path now f with
          | Except.ok r => r
          | Except.error (sE, _) => (sE, [])

/-- `_enforce_backup_limit` as written to behave: the clock values succeed
(supplied as `now`); everything else is the same translation, including the
catch-all that turns an index-save failure into an empty-list return. -/
def enforce_backup_limit_fixed (vm : VersionManager) (s : FS)
    (file_path now : String) (f : SaveFaults) : FS × List String :=
  let max_backups := read_max_backups vm.settings_manager
  match enforce_rest max_backups (fun st => load_tracked_files_fixed st now)
          s file_path now f with
  | Except.ok r => r
  | Except.error (sE, _) => (sE, [])

/-! ### `add_version` (lines 121–195) -/

/-- Lines 141–191 of `add_version`, after the clock has been consulted:
load, ensure the file entry and its `versions` dict exist, insert or update
the version entry in place, stamp `last_updated`, save, then enforce the
backup limit.  `loadFn`/`enfFn` are the reload and the enforcement call
(`self._enforce_backup_limit`), faithful or fixed. -/
def add_version_rest (loadFn : FS → FS × TrackedFiles)
    (enfFn : FS → String → SaveFaults → FS × List String)
    (s : FS) (file_path version_hash : String) (metadata : Meta)
    (commit_message : String) (now user : String) (f1 f2 : SaveFaults) :
    Except (FS × PyError) (FS × List String) :=
  let (s1, tracked_files) := loadFn s
  let normalized_path := normpath file_path
  -- ensure a file entry exists (lines 145–149)
  let tracked1 :=
    if (tracked_files.lookup normalized_path).isNone then
      assocSet tracked_files normalized_path ⟨some [], some now⟩
    else tracked_files
  -- ensure the `versions` key exists (lines 151–152)
  let tracked2 :=
    match tracked1.lookup normalized_path with
    | some entry =>
        if entry.versions.isNone then
          assocSet tracked1 normalized_path { entry with versions := some [] }
        else tracked1
    | none => tracked1   -- unreachable: the entry was just ensured
  match tracked2.lookup normalized_path with
  | none => Except.ok (s1, [])   -- unreachable
  | some entry =>
      let versions := entry.versions.getD []
      let info :=
        match versions.lookup version_hash with
        | some existing =>
            -- lines 158–167: update in place, reactivate
            { existing with
                timestamp := some now
                username := user
                commit_message :=
                  if commit_message ≠ "" then commit_message
                  else existing.commit_message
                metadata := metadata
                deleted := false }
        | none =>
            -- lines 168–177: brand-new version entry
            ⟨some now, metadata, user, commit_message, false⟩
      let versions2 := assocSet versions version_hash info
      let tracked3 := assocSet tracked2 normalized_path
        { entry with versions := some versions2, last_updated := some now }
      -- line 184: save BEFORE enforcing the limit
      match save_tracked_files s1 tracked3 f1 with
      | (s2, Except.error e) => Except.error (s2, e)
      | (s2, Except.ok _) =>
          -- line 189: enforcement reloads, marks, saves, never raises
          let (s3, hashes_to_delete) := enfFn s2 normalized_path f2
          Except.ok (s3, hashes_to_delete)

/-- The `try` block of `add_version`, faithful: its first statement calls
`get_formatted_time(use_utc=True)`, which raises `TypeError` before anything
is loaded, mutated or saved. -/
def add_version_body (vm : VersionManager) (s : FS)
    (file_path version_hash : String) (metadata : Meta) (commit_message : String)
    (f1 f2 : SaveFaults) : Except (FS × PyError) (FS × List String) :=
  match get_formatted_time_use_utc with
  | Except.error e => Except.error (s, e)
  | Except.ok now =>
      match get_current_username_missing with
      | Except.error e => Except.error (s, e)
      | Except.ok user =>
          add_version_rest load_tracked_files
            (fun st p f => enforce_backup_limit vm st p f)
            s file_path version_hash metadata commit_message now user f1 f2

/-- `add_version`, faithful: the catch-all `except` (lines 193–195) converts
any error raised inside into an empty-list return. -/
def add_version (vm : VersionManager) (s : FS)
    (file_path version_hash : String) (metadata : Meta) (commit_message : String)
    (f1 f2 : SaveFaults) : FS × List String :=
  match add_version_body vm s file_path version_hash metadata commit_message f1 f2 with
  | Except.ok r => r
  | Except.error (sE, _) => (sE, [])

/-- The `try` block of `add_version` as written to behave: the clock values
succeed and are supplied as `now`/`user`. -/
def add_version_fixed_body (vm : VersionManager) (s : FS)
    (file_path version_hash : String) (metadata : Meta) (commit_message : String)
    (now user : String) (f1 f2 : SaveFaults) :
    Except (FS × PyError) (FS × List String) :=
  add_version_rest (fun st => load_tracked_files_fixed st now)
    (fun st p f => enforce_backup_limit_fixed vm st p now f)
    s file_path version_hash metadata commit_message now user f1 f2

/-- `add_version` as written to behave, with the same catch-all `except`. -/
def add_version_fixed (vm : VersionManager) (s : FS)
    (file_path version_hash : String) (metadata : Meta) (commit_message : String)
    (now user : String) (f1 f2 : SaveFaults) : FS × List String :=
  match add_version_fixed_body vm s file_path version_hash metadata commit_message
          now user f1 f2 with
  | Except.ok r => r
  | Except.error (sE, _) => (sE, [])

/-! ### `get_active_file_versions` (lines 334–376) -/

/-- `get_active_file_versions`: the non-deleted versions with a valid
timestamp, newest first.  Nothing in the body can raise, so the enclosing
`try`/`except` never fires. -/
def get_active_file_versions (s : FS) (file_path : String) :
    FS × List (String × VersionInfo) :=
  let (s1, tracked_files) := load_tracked_files s
  let normalized_path := normpath file_path
  match tracked_files.lookup normalized_path with
  | none => (s1, [])
  | some entry =>
      let versions := entry.versions.getD []
      if versions.isEmpty then (s1, [])
      else
        let active := collectActive versions
        if active.isEmpty then (s1, [])
        else (s1, (List.insertionSort byTsDesc active).map (fun q => q.1))

/-! ## Concrete states used by the claim theorems -/

def exV1 : VersionInfo := ⟨some "2024-01-01 10:00:00", [], "u", "m1", false⟩

def exV2 : VersionInfo := ⟨some "2024-01-01 10:00:01", [], "u", "m2", false⟩

def exV3 : VersionInfo := ⟨some "2024-01-01 10:00:02", [], "u", "m3", false⟩

/-- A manager whose settings configure `max_backups = 2`. -/
def exVMcap2 : VersionManager := ⟨some ⟨some (SettingVal.vint 2)⟩⟩

/-- Index with the three active versions `aaa`, `bbb`, `ccc` of file `f`. -/
def c3s : FS :=
  ⟨[], some (IndexContent.good
      [("f", ⟨some [("aaa", exV1), ("bbb", exV2), ("ccc", exV3)],
              some "2024-01-01 10:00:02"⟩)]), none, []⟩

/-- `c3s` after intended enforcement at cap 2: `aaa` marked deleted. -/
def c3sAfter : FS :=
  ⟨[], some (IndexContent.good
      [("f", ⟨some [("aaa", { exV1 with deleted := true }), ("bbb", exV2), ("ccc", exV3)],
              some "2024-01-01 10:00:03"⟩)]), none, []⟩

/-- Index with only `aaa` and `bbb` committed (before the `ccc` commit). -/
def c3sPre : FS :=
  ⟨[], some (IndexContent.good
      [("f", ⟨some [("aaa", exV1), ("bbb", exV2)], some "2024-01-01 10:00:01"⟩)]), none, []⟩

/-- `c3sPre` after the intended `add_version` of `ccc` at cap 2. -/
def c3sAfterAdd : FS :=
  ⟨[], some (IndexContent.good
      [("f", ⟨some [("aaa", { exV1 with deleted := true }), ("bbb", exV2), ("ccc", exV3)],
              some "2024-01-01 10:00:02"⟩)]), none, []⟩

/-! ## C1 -/

/-- **C1.**  For every file path, hash, metadata mapping, commit message,
filesystem state and fault scenario, `add_version` returns the empty list and
leaves the tracked-files index (indeed the whole filesystem) unchanged: its
first statement `get_formatted_time(use_utc=True)` raises `TypeError` —
`get_formatted_time` as defined in `utils/time_utils.py` accepts no
arguments — before any mutation or save, and the catch-all `except` turns
the error into an empty-list return. -/
theorem c1_add_version_always_returns_empty_and_leaves_state
    (vm : VersionManager) (s : FS) (file_path version_hash : String)
    (metadata : Meta) (commit_message : String) (f1 f2 : SaveFaults) :
    add_version vm s file_path version_hash metadata commit_message f1 f2 = (s, []) ∧
    add_version_body vm s file_path version_hash metadata commit_message f1 f2 =
      Except.error (s, PyError.typeError) :=
  ⟨rfl, rfl⟩

/-! ## C2 -/

/-- **C2, counterexample.**  A failure that is *not* a retention-enforcement
failure — the `TypeError` raised by `get_formatted_time(use_utc=True)` at the
top of `add_version`, before the index is even loaded and long before
retention enforcement — is caught by `add_version`'s catch-all and turned
into an empty-list return instead of propagating to the caller, so it is not
true that the commit flow fails visibly and that only retention-enforcement
failures are swallowed. -/
theorem c2_counterexample_typeerror_swallowed :
    add_version_body ⟨none⟩ c3s "f" "ddd" [] "msg" noFaults noFaults =
      Except.error (c3s, PyError.typeError) ∧
    add_version ⟨none⟩ c3s "f" "ddd" [] "msg" noFaults noFaults = (c3s, []) :=
  ⟨rfl, rfl⟩

/-! ## C3 -/

/-- **C3.**  Retention enforcement on the spec's concrete scenario (cap 2,
three active versions `aaa` < `bbb` < `ccc` by timestamp).  As shipped,
`_enforce_backup_limit` reads the cap and then dies on
`get_formatted_time(use_utc=True)`; its catch-all returns `[]` and nothing
is ever marked deleted.  The fixed variant — the same translation with the
clock call succeeding — marks exactly the oldest excess version `aaa`,
returns `["aaa"]`, and leaves `ccc`, `bbb` as the active versions, exactly
as the claim describes; the same holds for the full `add_version` commit of
`ccc`. -/
theorem c3_enforcement_noop_on_code_but_marks_oldest_as_intended :
    enforce_backup_limit exVMcap2 c3s "f" noFaults = (c3s, []) ∧
    enforce_backup_limit_fixed exVMcap2 c3s "f" "2024-01-01 10:00:03" noFaults =
      (c3sAfter, ["aaa"]) ∧
    (get_active_file_versions c3sAfter "f").2 = [("ccc", exV3), ("bbb", exV2)] ∧
    add_version_fixed exVMcap2 c3sPre "f" "ccc" [] "m3" "2024-01-01 10:00:02" "u"
        noFaults noFaults = (c3sAfterAdd, ["aaa"]) ∧
    enforce_backup_limit_fixed exVMcap2 c3sAfter "f" "2024-01-01 10:00:04" noFaults =
      (c3sAfter, []) := by
  refine ⟨rfl, ?_, ?_, ?_, ?_⟩ <;> decide

/-! ## C5 -/

/-- The deleted version entry that the C5 scenario re-adds. -/
def c5v : VersionInfo := ⟨some "2024-01-01 10:00:00", [("size", "1")], "alice", "first", true⟩

def c5s : FS :=
  ⟨[], some (IndexContent.good
      [("f", ⟨some [("aaa", c5v)], some "2024-01-01 10:00:00"⟩)]), none, []⟩

/-- `c5s` after the intended re-add of `aaa` with message `"re-add"`. -/
def c5sAfter : FS :=
  ⟨[], some (IndexContent.good
      [("f", ⟨some [("aaa", ⟨some "2024-01-02 11:00:00", [("size", "2")], "bob", "re-add", false⟩)],
              some "2024-01-02 11:00:00"⟩)]), none, []⟩

/-- `c5s` after the intended re-add of `aaa` with an *empty* message: the
old commit message `"first"` is kept. -/
def c5sAfterKeepMsg : FS :=
  ⟨[], some (IndexContent.good
      [("f", ⟨some [("aaa", ⟨some "2024-01-02 11:00:00", [("size", "2")], "bob", "first", false⟩)],
              some "2024-01-02 11:00:00"⟩)]), none, []⟩

/-- **C5.**  Re-adding hash `aaa`, already present (and deleted) for `f`.
As shipped, `add_version` dies on the broken time call and changes nothing:
the entry keeps its old timestamp, username, metadata, message and
`deleted=true`.  The fixed variant does what the claim describes: it updates
the single existing entry in place (timestamp, username, metadata; the
commit message only when the new one is non-empty), resets `deleted` to
`false`, and the number of version entries stays one — no duplicate entry is
created. -/
theorem c5_readd_noop_on_code_but_updates_in_place_as_intended :
    add_version ⟨none⟩ c5s "f" "aaa" [("size", "2")] "re-add" noFaults noFaults =
      (c5s, []) ∧
    add_version_fixed ⟨none⟩ c5s "f" "aaa" [("size", "2")] "re-add"
        "2024-01-02 11:00:00" "bob" noFaults noFaults = (c5sAfter, []) ∧
    add_version_fixed ⟨none⟩ c5s "f" "aaa" [("size", "2")] ""
        "2024-01-02 11:00:00" "bob" noFaults noFaults = (c5sAfterKeepMsg, []) := by
  refine ⟨rfl, ?_, ?_⟩ <;> decide

/-! ## C7 -/

/-- An index file whose contents do not parse. -/
def c7s : FS := ⟨[], some (IndexContent.corrupt "not json"), none, []⟩

/-- **C7.**  Loading never raises and an absent index file yields the empty
mapping, as claimed.  But on a corrupt index file the quarantine rename never
happens: building the quarantine name calls `get_formatted_time(use_utc=True)`,
which raises `TypeError` inside the backup `try`, so the code merely returns
the empty mapping and leaves the corrupt file in place.  The fixed variant
performs the rename the handler was written to do, moving the corrupt
content to `tracked_files.json.corrupted_<stamp>`. -/
theorem c7_load_corrupt_returns_empty_but_never_quarantines :
    load_tracked_files c7s = (c7s, []) ∧
    load_tracked_files (⟨[], none, none, []⟩ : FS) = (⟨[], none, none, []⟩, []) ∧
    load_tracked_files_fixed c7s "2024-01-02 03:04:05" =
      (⟨[], none, none,
        [("tracked_files.json.corrupted_2024-01-02 03-04-05", IndexContent.corrupt "not json")]⟩,
       []) := by
  refine ⟨rfl, rfl, ?_⟩
  decide

/-! ## C6 -/

/-- **C6, counterexample.**  A write failure that leaves a partially written
temporary file, combined with a failing cleanup `os.remove` (both operations
the code itself guards with `try`/`except`): the error propagates and the
real index file is untouched, but the temporary file is present and *not*
removed — refuting "the temporary file is removed when present". -/
theorem c6_counterexample_temp_left_behind :
    (save_tracked_files ⟨[], some (IndexContent.good []), none, []⟩ []
        ⟨true, some (IndexContent.corrupt "half"), false, true⟩).2 =
      Except.error PyError.ioError ∧
    (save_tracked_files ⟨[], some (IndexContent.good []), none, []⟩ []
        ⟨true, some (IndexContent.corrupt "half"), false, true⟩).1.temp =
      some (IndexContent.corrupt "half") ∧
    (save_tracked_files ⟨[], some (IndexContent.good []), none, []⟩ []
        ⟨true, some (IndexContent.corrupt "half"), false, true⟩).1.index =
      some (IndexContent.good []) :=
  ⟨rfl, rfl, rfl⟩

/-- **C6, amended.**  `save_tracked_files` writes the serialized mapping to a
temporary file and atomically replaces the index file, which afterwards holds
either its prior contents or the complete new contents, never a partial
write; on failure the error propagates and removal of the temporary file is
*attempted* (best-effort: if the removal itself fails, the temporary file may
remain). -/
theorem c6_save_atomic_with_best_effort_cleanup (s : FS) (tf : TrackedFiles)
    (f : SaveFaults) :
    (f.writeFails = false → f.replaceFails = false →
      save_tracked_files s tf f =
        ({ s with index := some (IndexContent.good tf), temp := none }, Except.ok ())) ∧
    ((f.writeFails = true ∨ f.replaceFails = true) →
      (save_tracked_files s tf f).2 = Except.error PyError.ioError ∧
      (save_tracked_files s tf f).1.index = s.index ∧
      (f.removeFails = false → (save_tracked_files s tf f).1.temp = none)) := by
  obtain ⟨w, t, r, m⟩ := f
  constructor
  · rintro rfl rfl
    simp [save_tracked_files]
  · intro h
    cases w with
    | true => cases t <;> cases m <;> cases r <;> simp [save_tracked_files, handle_save_error]
    | false =>
        cases r with
        | false => simp at h
        | true => cases m <;> simp [save_tracked_files, handle_save_error]

/-- Witness for C6: a failing write propagates the error, leaves the index
untouched and cleans up the temp file; a fault-free save installs the new
contents atomically. -/
theorem c6_save_atomic_with_best_effort_cleanup_witness :
    (save_tracked_files ⟨[], none, none, []⟩ [] ⟨true, none, false, false⟩).2 =
      Except.error PyError.ioError ∧
    (save_tracked_files ⟨[], none, none, []⟩ [] ⟨true, none, false, false⟩).1.index = none ∧
    (save_tracked_files ⟨[], none, none, []⟩ [] ⟨true, none, false, false⟩).1.temp = none ∧
    save_tracked_files ⟨[], none, none, []⟩ [("g", ⟨some [], none⟩)] noFaults =
      (⟨[], some (IndexContent.good [("g", ⟨some [], none⟩)]), none, []⟩, Except.ok ()) := by
  have h1 := (c6_save_atomic_with_best_effort_cleanup ⟨[], none, none, []⟩ []
      ⟨true, none, false, false⟩).2 (Or.inl rfl)
  have h2 := (c6_save_atomic_with_best_effort_cleanup ⟨[], none, none, []⟩
      [("g", ⟨some [], none⟩)] noFaults).1 rfl rfl
  exact ⟨h1.1, h1.2.1, h1.2.2 rfl, h2⟩

/-! ## C9 -/

/-- **C9.**  The retention cap used by enforcement: the configured value when
it converts to a positive integer; the default 3 when the conversion fails
(`ValueError`/`TypeError`, both caught), when the value is non-positive, when
the `"max_backups"` key is absent, or when there is no settings manager; the
result is always positive and an invalid value never changes enforcement's
behaviour relative to the default cap (no exception escapes). -/
theorem c9_retention_cap_fallback :
    (∀ m v n, m.max_backups = some v → py_int v = Except.ok n → 0 < n →
        read_max_backups (some m) = n) ∧
    (∀ m v, m.max_backups = some v → (py_int v).isOk = false →
        read_max_backups (some m) = 3) ∧
    (∀ m v n, m.max_backups = some v → py_int v = Except.ok n → n ≤ 0 →
        read_max_backups (some m) = 3) ∧
    (∀ m, m.max_backups = none → read_max_backups (some m) = 3) ∧
    read_max_backups none = 3 ∧
    (∀ sm, 0 < read_max_backups sm) ∧
    (∀ v s file_path now f, (py_int v).isOk = false →
        enforce_backup_limit_fixed ⟨some ⟨some v⟩⟩ s file_path now f =
          enforce_backup_limit_fixed ⟨some ⟨some (SettingVal.vint 3)⟩⟩ s file_path now f) := by
  refine ⟨?_, ?_, ?_, ?_, rfl, ?_, ?_⟩
  · intro m v n h1 h2 h3
    simp only [read_max_backups, h1, h2]
    rw [if_neg (by omega)]
  · intro m v h1 h2
    cases hv : py_int v with
    | ok a => rw [hv] at h2; simp [Except.isOk, Except.toBool] at h2
    | error e => simp only [read_max_backups, h1, hv]
  · intro m v n h1 h2 h3
    simp only [read_max_backups, h1, h2]
    rw [if_pos h3]
  · intro m h1
    simp only [read_max_backups, h1]
  · intro sm
    cases sm with
    | none => decide
    | some m =>
        cases hm : m.max_backups with
        | none => simp only [read_max_backups, hm]; decide
        | some v =>
            cases hv : py_int v with
            | error e => simp only [read_max_backups, hm, hv]; decide
            | ok n =>
                simp only [read_max_backups, hm, hv]
                by_cases hn : n ≤ 0
                · rw [if_pos hn]; decide
                · rw [if_neg hn]; omega
  · intro v s file_path now f hv
    have hL : read_max_backups (some ⟨some v⟩) = 3 := by
      cases hpv : py_int v with
      | ok a => rw [hpv] at hv; simp [Except.isOk, Except.toBool] at hv
      | error e => simp only [read_max_backups, hpv]
    have hR : read_max_backups (some ⟨some (SettingVal.vint 3)⟩) = 3 := rfl
    simp only [enforce_backup_limit_fixed, hL, hR]

/-- Witness for C9: concrete configured values. -/
theorem c9_retention_cap_fallback_witness :
    read_max_backups (some ⟨some (SettingVal.vstr "7")⟩) = 7 ∧
    read_max_backups (some ⟨some (SettingVal.vstr "garbage")⟩) = 3 ∧
    read_max_backups (some ⟨some (SettingVal.vint (-2))⟩) = 3 ∧
    read_max_backups (some ⟨none⟩) = 3 ∧
    read_max_backups none = 3 ∧
    enforce_backup_limit_fixed ⟨some ⟨some SettingVal.vnone⟩⟩ c3s "f"
        "2024-01-01 10:00:03" noFaults =
      enforce_backup_limit_fixed ⟨some ⟨some (SettingVal.vint 3)⟩⟩ c3s "f"
        "2024-01-01 10:00:03" noFaults := by
  obtain ⟨h1, h2, h3, h4, h5, _, h7⟩ := c9_retention_cap_fallback
  exact ⟨h1 _ _ 7 rfl (by decide) (by decide),
         h2 _ _ rfl (by decide),
         h3 _ _ (-2) rfl (by decide) (by decide),
         h4 _ rfl,
         h5,
         h7 _ _ _ _ _ (by decide)⟩

/-! ## C2: helper lemmas and the amended propagation policy -/

theorem lookup_assocSet_self (l : List (String × β)) (k : String) (v : β) :
    (assocSet l k v).lookup k = some v := by
  induction l with
  | nil => simp [assocSet, List.lookup]
  | cons p rest ih =>
      obtain ⟨k', v'⟩ := p
      by_cases h : k' = k
      · simp [assocSet, h, List.lookup]
      · have hb : (k == k') = false := beq_eq_false_iff_ne.mpr (fun hh => h hh.symm)
        simp [assocSet, h, List.lookup, hb, ih]

theorem handle_save_error_eq (s : FS) (f : SaveFaults) :
    handle_save_error s f =
      ((handle_save_error s f).1, Except.error PyError.ioError) := by
  unfold handle_save_error
  cases s.temp with
  | none => rfl
  | some c => cases hf : f.removeFails <;> simp [hf]

theorem save_writeFails (s : FS) (tf : TrackedFiles) (f : SaveFaults)
    (h : f.writeFails = true) :
    save_tracked_files s tf f = handle_save_error { s with temp := f.tempLeft } f := by
  unfold save_tracked_files
  rw [if_pos h]

/-- Whenever the index save inside `add_version` fails with its `IOError`,
the `try` block of `add_version` terminates with that error. -/
theorem add_version_rest_writeFails
    (loadFn : FS → FS × TrackedFiles) (enfFn : FS → String → SaveFaults → FS × List String)
    (s : FS) (fp vh : String) (meta : Meta) (msg now user : String)
    (f1 f2 : SaveFaults) (h : f1.writeFails = true) :
    ∃ sE, add_version_rest loadFn enfFn s fp vh meta msg now user f1 f2 =
      Except.error (sE, PyError.ioError) := by
  rcases hL : loadFn s with ⟨s1, tracked⟩
  simp only [add_version_rest, hL]
  by_cases h1 : (tracked.lookup (normpath fp)).isNone = true
  · simp only [h1, if_true]
    rw [lookup_assocSet_self]
    simp only [Option.isNone_some, Bool.false_eq_true, if_false]
    rw [lookup_assocSet_self]
    simp only [Option.getD_some]
    rw [save_writeFails _ _ _ h, handle_save_error_eq]
    exact ⟨_, rfl⟩
  · rw [if_neg h1]
    rcases h2 : tracked.lookup (normpath fp) with _ | entry0
    · rw [h2] at h1; simp at h1
    · simp only [h2]
      by_cases h3 : entry0.versions.isNone = true
      · simp only [h3, if_true]
        rw [lookup_assocSet_self]
        simp only [Option.getD_some, List.lookup_nil]
        rw [save_writeFails _ _ _ h, handle_save_error_eq]
        exact ⟨_, rfl⟩
      · rw [if_neg h3]
        simp only [h2]
        rcases h4 : (entry0.versions.getD []).lookup vh with _ | existing <;>
          · simp only [h4]
            rw [save_writeFails _ _ _ h, handle_save_error_eq]
            exact ⟨_, rfl⟩

/-- **C2, amended.**  Even with the time helpers working, an index-save
failure raised inside `add_version` does *not* propagate to the caller: the
`try` block terminates with the save's `IOError`, and the catch-all turns it
into an empty-list return (hashing is not performed inside `add_version` at
all — the hash arrives as an argument). -/
theorem c2_index_save_failure_swallowed_by_add_version
    (vm : VersionManager) (s : FS) (file_path version_hash : String)
    (metadata : Meta) (commit_message now user : String) (f1 f2 : SaveFaults)
    (h : f1.writeFails = true) :
    ∃ sE,
      add_version_fixed_body vm s file_path version_hash metadata commit_message
          now user f1 f2 = Except.error (sE, PyError.ioError) ∧
      add_version_fixed vm s file_path version_hash metadata commit_message
          now user f1 f2 = (sE, []) := by
  obtain ⟨sE, hb⟩ := add_version_rest_writeFails
    (fun st => load_tracked_files_fixed st now)
    (fun st p f => enforce_backup_limit_fixed vm st p now f)
    s file_path version_hash metadata commit_message now user f1 f2 h
  refine ⟨sE, hb, ?_⟩
  unfold add_version_fixed
  rw [show add_version_fixed_body vm s file_path version_hash metadata commit_message
        now user f1 f2 = Except.error (sE, PyError.ioError) from hb]

/-- Witness for C2's amended claim: a concrete failing save inside a
concrete commit is converted to an empty-list return. -/
theorem c2_index_save_failure_swallowed_by_add_version_witness :
    ∃ sE,
      add_version_fixed_body ⟨none⟩ c3sPre "f" "ccc" [] "m3" "2024-01-01 10:00:02" "u"
          ⟨true, none, false, false⟩ noFaults = Except.error (sE, PyError.ioError) ∧
      add_version_fixed ⟨none⟩ c3sPre "f" "ccc" [] "m3" "2024-01-01 10:00:02" "u"
          ⟨true, none, false, false⟩ noFaults = (sE, []) :=
  c2_index_save_failure_swallowed_by_add_version ⟨none⟩ c3sPre "f" "ccc" [] "m3"
    "2024-01-01 10:00:02" "u" ⟨true, none, false, false⟩ noFaults rfl

/-! ## C10 -/

theorem foldl_hasher_update (ls : List (List Nat)) (acc : Hasher) :
    ls.foldl Hasher.update acc = acc ++ ls.flatten := by
  induction ls generalizing acc with
  | nil => simp
  | cons c cs ih => simp [Hasher.update, ih]

/-- Feeding a file's 8 KiB chunks through the hasher digests exactly the
file's byte content. -/
theorem calculate_file_hash_eq (s : FS) (p : String) (c : List Nat)
    (h : s.files.lookup p = some c) :
    calculate_file_hash s p = Except.ok (sha256hex c) := by
  unfold calculate_file_hash
  simp only [h]
  rw [foldl_hasher_update, List.nil_append, chunkList_flatten 8192 (by omega)]
  rfl

/-- **C10.**  The hashing operation is a function of the file's byte content
only: two reads of identical byte content — at any two paths, in any two
filesystem states — produce the same digest, namely the lowercase-hex
SHA-256 of the content; the 8 KiB chunking does not affect the digest. -/
theorem c10_hash_depends_only_on_content
    (s1 s2 : FS) (p1 p2 : String) (c : List Nat)
    (h1 : s1.files.lookup p1 = some c) (h2 : s2.files.lookup p2 = some c) :
    calculate_file_hash s1 p1 = calculate_file_hash s2 p2 ∧
    calculate_file_hash s1 p1 = Except.ok (sha256hex c) := by
  have e1 := calculate_file_hash_eq s1 p1 c h1
  have e2 := calculate_file_hash_eq s2 p2 c h2
  exact ⟨e1.trans e2.symm, e1⟩

/-- Witness for C10: the same one-byte content at two different paths in two
different states. -/
theorem c10_hash_depends_only_on_content_witness :
    calculate_file_hash ⟨[("p", [97])], none, none, []⟩ "p" =
      calculate_file_hash ⟨[("q", [97]), ("r", [98])], some (IndexContent.good []), none, []⟩ "q" ∧
    calculate_file_hash ⟨[("p", [97])], none, none, []⟩ "p" = Except.ok (sha256hex [97]) :=
  c10_hash_depends_only_on_content ⟨[("p", [97])], none, none, []⟩
    ⟨[("q", [97]), ("r", [98])], some (IndexContent.good []), none, []⟩
    "p" "q" [97] (by decide) (by decide)

/-! ## C8 -/

theorem load_tracked_files_fst (s : FS) : (load_tracked_files s).1 = s := by
  obtain ⟨fi, ix, tp, q⟩ := s
  cases ix with
  | none => rfl
  | some c => cases c <;> rfl

theorem collectActive_map_fst (versions : List (String × VersionInfo)) :
    (collectActive versions).map (fun q => q.1) =
      versions.filter (fun p => !p.2.deleted && (tsKey p).isSome) := by
  induction versions with
  | nil => rfl
  | cons p rest ih =>
      cases hd : p.2.deleted with
      | true => simp [collectActive, hd, List.filter_cons, ih]
      | false =>
          cases hts : p.2.timestamp with
          | none => simp [collectActive, hd, hts, tsKey, List.filter_cons, ih]
          | some ts =>
              cases hstr : strptime ts with
              | none => simp [collectActive, hd, hts, hstr, tsKey, List.filter_cons, ih]
              | some dt => simp [collectActive, hd, hts, hstr, tsKey, List.filter_cons, ih]

theorem collectActive_key (versions : List (String × VersionInfo)) :
    ∀ q ∈ collectActive versions, q.2 = tsKeyD q.1 := by
  induction versions with
  | nil => simp [collectActive]
  | cons p rest ih =>
      intro q hq
      cases hd : p.2.deleted with
      | true =>
          rw [collectActive, if_pos hd] at hq
          exact ih q hq
      | false =>
          rw [collectActive, if_neg (by simp [hd])] at hq
          cases hts : p.2.timestamp with
          | none =>
              simp only [hts] at hq
              exact ih q hq
          | some ts =>
              simp only [hts] at hq
              cases hstr : strptime ts with
              | none => simp only [hstr] at hq; exact ih q hq
              | some dt =>
                  simp only [hstr] at hq
                  rcases List.mem_cons.mp hq with rfl | hq2
                  · simp [tsKeyD, tsKey, hts, hstr]
                  · exact ih q hq2

/-- **C8.**  For every state and path, `get_active_file_versions` returns
exactly the version entries with `deleted=false` and a well-formed
`YYYY-MM-DD HH:MM:SS` timestamp (as a permutation-exact characterization),
sorted by timestamp descending; entries with a missing or malformed
timestamp are skipped rather than raising (the function is total), and an
untracked file or one with no qualifying versions yields the empty list
(the filter of its — empty — version list).  The state is untouched. -/
theorem c8_get_active_versions_exact_sorted (s : FS) (file_path : String) :
    (get_active_file_versions s file_path).1 = s ∧
    (get_active_file_versions s file_path).2.Perm
      (((((load_tracked_files s).2.lookup (normpath file_path)).map
          (fun tf => tf.versions.getD [])).getD []).filter
        (fun p => !p.2.deleted && (tsKey p).isSome)) ∧
    (get_active_file_versions s file_path).2.Pairwise
      (fun a b => tsKeyD b ≤ tsKeyD a) := by
  have hfst := load_tracked_files_fst s
  rcases hL : load_tracked_files s with ⟨s1, tracked⟩
  rw [hL] at hfst
  simp only [get_active_file_versions, hL]
  rcases hlk : tracked.lookup (normpath file_path) with _ | entry
  · simpa using hfst
  · simp only [Option.map_some, Option.getD_some]
    cases hve : (entry.versions.getD []).isEmpty with
    | true =>
        rw [List.isEmpty_iff] at hve
        simp [hve, hfst]
    | false =>
        simp only [hve, Bool.false_eq_true, if_false]
        cases hae : (collectActive (entry.versions.getD [])).isEmpty with
        | true =>
            rw [List.isEmpty_iff] at hae
            have hmap := collectActive_map_fst (entry.versions.getD [])
            rw [hae] at hmap
            simp [hae, hfst, ← hmap]
        | false =>
            simp only [hae, Bool.false_eq_true, if_false]
            refine ⟨hfst, ?_, ?_⟩
            · have hperm :=
                (List.perm_insertionSort byTsDesc
                  (collectActive (entry.versions.getD []))).map (fun q => q.1)
              rw [collectActive_map_fst] at hperm
              exact hperm
            · rw [List.pairwise_map]
              have hsorted := List.sorted_insertionSort byTsDesc
                (collectActive (entry.versions.getD []))
              refine hsorted.imp_of_mem ?_
              intro a b ha hb hr
              rw [List.mem_insertionSort] at ha hb
              have ka := collectActive_key _ a ha
              have kb := collectActive_key _ b hb
              rw [← ka, ← kb]
              exact hr

/-! ## C4 -/

/-- The active (non-deleted) versions of a normalized path in an index
mapping, in insertion order (mirrors lines 56–59; an untracked path or a
missing `versions` key gives the empty list). -/
def activeVersionsOf (tracked_files : TrackedFiles) (normalized_path : String) :
    List (String × VersionInfo) :=
  (((tracked_files.lookup normalized_path).map
      (fun tf => tf.versions.getD [])).getD []).filter (fun p => !p.2.deleted)

theorem parseKeysPython_ok (active : List (String × VersionInfo))
    (h : ∀ e ∈ active, (tsKey e).isSome = true) :
    ∃ keyed, parseKeysPython active = Except.ok keyed ∧
      keyed.map (fun q => q.1) = active ∧
      ∀ q ∈ keyed, q.2 = tsKeyD q.1 := by
  induction active with
  | nil => exact ⟨[], rfl, rfl, by simp⟩
  | cons p rest ih =>
      have hp := h p (List.mem_cons_self p rest)
      rcases hts : p.2.timestamp with _ | ts
      · rw [tsKey, hts] at hp; simp at hp
      · rcases hdt : strptime ts with _ | dt
        · rw [tsKey, hts] at hp; simp [hdt] at hp
        · obtain ⟨keyed', h1, h2, h3⟩ := ih (fun e he => h e (List.mem_cons_of_mem p he))
          refine ⟨(p, dt.key) :: keyed', ?_, ?_, ?_⟩
          · simp only [parseKeysPython, hts, hdt, h1, Except.map]
          · simp [h2]
          · intro q hq
            rcases List.mem_cons.mp hq with rfl | hq2
            · simp [tsKeyD, tsKey, hts, hdt]
            · exact h3 q hq2

theorem insertionSort_head_max (l : List KeyedVersion) (x : KeyedVersion)
    (hx : x ∈ l) (hmax : ∀ y ∈ l, y ≠ x → y.2 < x.2) (hd : KeyedVersion)
    (rest : List KeyedVersion)
    (hsort : List.insertionSort byTsDesc l = hd :: rest) : hd = x := by
  have hperm := List.perm_insertionSort byTsDesc l
  have hsorted := List.sorted_insertionSort byTsDesc l
  rw [hsort] at hperm hsorted
  have hdmem : hd ∈ l := hperm.mem_iff.mp (List.mem_cons_self hd rest)
  by_cases hhd : hd = x
  · exact hhd
  · have hlt : hd.2 < x.2 := hmax hd hdmem hhd
    have hxmem : x ∈ hd :: rest := hperm.mem_iff.mpr hx
    rcases List.mem_cons.mp hxmem with hx1 | hx2
    · exact absurd hx1.symm hhd
    · have hrel : x.2 ≤ hd.2 := List.rel_of_sorted_cons hsorted x hx2
      omega

/-- **C4.**  `has_file_changed` for a readable file: whenever the file has no
tracked entry, no version history, or no active version, it reports
`changed = true` with an empty `last_active_hash`; otherwise, `latest` being
the active version with the strictly greatest (well-formed) timestamp, it
returns exactly `(current_hash != latest.hash, current_hash, latest.hash)` —
in particular `changed = false` iff the current content hash equals the most
recent active version's hash, which is returned as `last_active_hash`. -/
theorem c4_has_file_changed_reports_last_active_hash
    (s : FS) (file_path : String) (tracked_files : TrackedFiles) (content : List Nat)
    (hfile : s.files.lookup file_path = some content) :
    (activeVersionsOf tracked_files (normpath file_path) = [] →
      (has_file_changed s file_path tracked_files).1 = true ∧
      (has_file_changed s file_path tracked_files).2.2 = "") ∧
    (∀ latest ∈ activeVersionsOf tracked_files (normpath file_path),
      (∀ e ∈ activeVersionsOf tracked_files (normpath file_path),
          (tsKey e).isSome = true) →
      (∀ e ∈ activeVersionsOf tracked_files (normpath file_path), e ≠ latest →
          tsKeyD e < tsKeyD latest) →
      has_file_changed s file_path tracked_files =
        (sha256hex content != latest.1, sha256hex content, latest.1) ∧
      ((has_file_changed s file_path tracked_files).1 = false ↔
        sha256hex content = latest.1)) := by
  have hcalc := calculate_file_hash_eq s file_path content hfile
  rcases hlk : tracked_files.lookup (normpath file_path) with _ | entry
  · constructor
    · intro _
      simp [has_file_changed, has_file_changed_try, hcalc, hlk]
    · intro latest hmem _ _
      rw [activeVersionsOf, hlk] at hmem
      simp at hmem
  · have hact : activeVersionsOf tracked_files (normpath file_path) =
        (entry.versions.getD []).filter (fun p => !p.2.deleted) := by
      rw [activeVersionsOf, hlk]; rfl
    cases hve : (entry.versions.getD []).isEmpty with
    | true =>
        rw [List.isEmpty_iff] at hve
        constructor
        · intro _
          simp [has_file_changed, has_file_changed_try, hcalc, hlk, hve]
        · intro latest hmem _ _
          rw [hact, hve] at hmem
          simp at hmem
    | false =>
        cases hae : ((entry.versions.getD []).filter (fun p => !p.2.deleted)).isEmpty with
        | true =>
            rw [List.isEmpty_iff] at hae
            constructor
            · intro _
              simp [has_file_changed, has_file_changed_try, hcalc, hlk, hve, hae]
            · intro latest hmem _ _
              rw [hact, hae] at hmem
              simp at hmem
        | false =>
            constructor
            · intro h0
              rw [hact] at h0
              rw [h0] at hae
              simp at hae
            · intro latest hmem hall hmax
              rw [hact] at hmem hall hmax
              obtain ⟨keyed, hpk, hmapfst, hkeys⟩ :=
                parseKeysPython_ok ((entry.versions.getD []).filter (fun p => !p.2.deleted)) hall
              have hlat' : latest ∈ keyed.map (fun q => q.1) := by rw [hmapfst]; exact hmem
              obtain ⟨klat, hklatmem, hklatfst⟩ := List.mem_map.mp hlat'
              have hmax' : ∀ y ∈ keyed, y ≠ klat → y.2 < klat.2 := by
                intro y hy hne
                have hy1 : y.1 ∈ (entry.versions.getD []).filter (fun p => !p.2.deleted) := by
                  rw [← hmapfst]; exact List.mem_map_of_mem _ hy
                by_cases hfst : y.1 = latest
                · exact absurd
                    (Prod.ext (by rw [hfst, hklatfst])
                      (by rw [hkeys y hy, hkeys klat hklatmem, hfst, hklatfst])) hne
                · have hlt := hmax y.1 hy1 hfst
                  rw [hkeys y hy, hkeys klat hklatmem, hklatfst]
                  exact hlt
              rcases hsort : List.insertionSort byTsDesc keyed with _ | ⟨hd, rest⟩
              · exfalso
                have hperm := List.perm_insertionSort byTsDesc keyed
                rw [hsort] at hperm
                have hk0 : keyed = [] := hperm.symm.eq_nil
                rw [hk0] at hmapfst
                rw [← hmapfst] at hae
                simp at hae
              · have hhd : hd = klat :=
                  insertionSort_head_max keyed klat hklatmem hmax' hd rest hsort
                have htup : has_file_changed s file_path tracked_files =
                    (sha256hex content != latest.1, sha256hex content, latest.1) := by
                  simp only [has_file_changed, has_file_changed_try, hcalc, hlk, hve, hae,
                    hpk, hsort, Bool.false_eq_true, if_false, hhd, hklatfst]
                refine ⟨htup, ?_⟩
                rw [htup]
                simp

/-- Concrete index for the C4 witness: two active versions of `f`. -/
def c4wNew : VersionInfo := ⟨some "2024-01-01 00:00:00", [], "u", "", false⟩

def c4wOld : VersionInfo := ⟨some "2023-01-01 00:00:00", [], "u", "", false⟩

def c4wTracked : TrackedFiles := [("f", ⟨some [("h1", c4wNew), ("h0", c4wOld)], none⟩)]

/-- Witness for C4: an untracked file reports a change with empty hash; a
file with two active versions reports against the newest one. -/
theorem c4_has_file_changed_reports_last_active_hash_witness :
    ((has_file_changed ⟨[("f", [104])], none, none, []⟩ "f" []).1 = true ∧
     (has_file_changed ⟨[("f", [104])], none, none, []⟩ "f" []).2.2 = "") ∧
    (has_file_changed ⟨[("f", [104])], none, none, []⟩ "f" c4wTracked =
       (sha256hex [104] != "h1", sha256hex [104], "h1") ∧
     ((has_file_changed ⟨[("f", [104])], none, none, []⟩ "f" c4wTracked).1 = false ↔
       sha256hex [104] = "h1")) := by
  refine ⟨(c4_has_file_changed_reports_last_active_hash ⟨[("f", [104])], none, none, []⟩
      "f" [] [104] (by decide)).1 (by decide), ?_⟩
  exact (c4_has_file_changed_reports_last_active_hash ⟨[("f", [104])], none, none, []⟩
      "f" c4wTracked [104] (by decide)).2 ("h1", c4wNew) (by decide) (by decide) (by decide)
